import Mathlib

/-
  Verification development for the tiptap-react-ui-demo repository.

  The file shallowly embeds the original logic of the repository:
  the editor bridge sync effect of RichTextEditor.tsx, the
  useDebouncedCallback hook, and the Popover and Toolbar disclosure
  primitives. External capabilities (the tiptap document engine and the
  floating-ui positioning library) are modelled only through the
  interface contract the repository consumes.
-/

namespace Tiptap

/-! ## Editor bridge: RichTextEditor.tsx -/

/-- The externally owned document engine state, observed through its
serialized markup projection (getHTML). -/
structure EditorState where
  html : String
  deriving Repr, DecidableEq

/-- Serialized output of the engine, as read by the bridge. -/
def EditorState.getHTML (ed : EditorState) : String := ed.html

/-- A programmatic content push into the engine, recording the pushed
markup and the suppression flags threaded through the command chain:
setMeta addToHistory false and the emitUpdate option of setContent. -/
structure PushRecord where
  content : String
  emitUpdate : Bool
  addToHistory : Bool
  deriving Repr, DecidableEq

/-- Engine setContent: the engine parses the pushed markup and
re-serializes it with its own normalization (modelled by the
parameter normalize, an opaque engine capability). -/
def setContent (normalize : String → String) (ed : EditorState) (content : String) :
    EditorState :=
  { ed with html := normalize content }

/-- The sync useEffect of RichTextEditor.tsx (lines 72 to 76): when the
editor exists and the htmlContent prop differs from editor.getHTML(),
push the prop into the engine via
chain().setMeta(addToHistory, false).setContent(htmlContent, emitUpdate false);
otherwise do nothing.  Returns the resulting editor and the list of
pushes performed. -/
def syncEffect (normalize : String → String) (htmlContent : String)
    (editor : Option EditorState) : Option EditorState × List PushRecord :=
  match editor with
  | none => (none, [])
  | some ed =>
    if htmlContent ≠ ed.getHTML then
      (some (setContent normalize ed htmlContent),
        [{ content := htmlContent, emitUpdate := false, addToHistory := false }])
    else
      (some ed, [])

/-- Engine update notification contract consumed by the bridge: a push
emits an update event (delivering getHTML to the onUpdate handler, which
relays it to the debounced onChange) exactly when emitUpdate is true. -/
def pushUpdateEvents (normalize : String → String) (ed : EditorState) (p : PushRecord) :
    List String :=
  if p.emitUpdate then [(setContent normalize ed p.content).getHTML] else []

/-- All relay calls (invocations of debouncedOnHtmlChange, hence of the
eventual onDocumentChange) caused by one run of the sync effect. -/
def syncEffectRelayCalls (normalize : String → String) (htmlContent : String)
    (ed : EditorState) : List String :=
  ((syncEffect normalize htmlContent (some ed)).2.map (pushUpdateEvents normalize ed)).flatten

/-! ## Debounced callback: useDebouncedCallback (hooks) -/

/-- Events in the lifetime of one useDebouncedCallback instance:
a call of the returned debouncedCallback wrapper with arguments, a
render that replaces the target callback (the callbackRef update
effect), and the unmount cleanup.  Times are in milliseconds. -/
inductive DbEvent (α : Type) (κ : Type) where
  | call (t : Nat) (args : α)
  | render (t : Nat) (cb : κ)
  | unmount (t : Nat)
  deriving Repr

/-- Run-time state of the hook: callbackRef holds the latest target
callback, timeoutRef the pending timer (absolute fire time and the
captured arguments), fired the underlying invocations that already
happened (fire time, callback invoked, arguments), and mounted whether
the owning scope is still alive. -/
structure DbState (α : Type) (κ : Type) where
  callbackRef : κ
  timeoutRef : Option (Nat × α)
  fired : List (Nat × κ × α)
  mounted : Bool
  deriving Repr

/-- A pending timer whose fire time has been reached fires before the
next event is processed: it invokes callbackRef.current with the
captured arguments (source: setTimeout body reading callbackRef at fire
time). -/
def fireDue {α κ : Type} (s : DbState α κ) (t : Nat) : DbState α κ :=
  match s.timeoutRef with
  | some pending =>
    if pending.1 ≤ t then
      { s with timeoutRef := none,
               fired := s.fired ++ [(pending.1, s.callbackRef, pending.2)] }
    else s
  | none => s

/-- One event step.  A wrapper call clears any pending timeout and
schedules a new one delay ms in the future with the new arguments; a
render updates callbackRef.current; unmount runs the cleanup effect,
clearing any pending timeout. -/
def dbStep {α κ : Type} (delay : Nat) (s : DbState α κ) (e : DbEvent α κ) : DbState α κ :=
  match e with
  | .call t args =>
    let s2 := fireDue s t
    if s2.mounted then { s2 with timeoutRef := some (t + delay, args) } else s2
  | .render t cb =>
    let s2 := fireDue s t
    if s2.mounted then { s2 with callbackRef := cb } else s2
  | .unmount t =>
    let s2 := fireDue s t
    { s2 with timeoutRef := none, mounted := false }

/-- Hook state right after mounting with initial target callback c. -/
def dbInit {α κ : Type} (c : κ) : DbState α κ :=
  { callbackRef := c, timeoutRef := none, fired := [], mounted := true }

/-- Process a whole event trace in order. -/
def dbRun {α κ : Type} (delay : Nat) (c : κ) (events : List (DbEvent α κ)) : DbState α κ :=
  events.foldl (dbStep delay) (dbInit c)

/-- After the trace ends, a still-pending timer of a still-mounted hook
eventually fires. -/
def dbFlush {α κ : Type} (s : DbState α κ) : List (Nat × κ × α) :=
  match s.timeoutRef with
  | some pending => s.fired ++ [(pending.1, s.callbackRef, pending.2)]
  | none => s.fired

/-- All underlying-callback invocations produced by an event trace. -/
def dbFired {α κ : Type} (delay : Nat) (c : κ) (events : List (DbEvent α κ)) :
    List (Nat × κ × α) :=
  dbFlush (dbRun delay c events)

/-- Last element of a list, with a default for the empty list. -/
def lastD {β : Type} (d : β) : List β → β
  | [] => d
  | x :: xs => lastD x xs

/-- Each listed call happens strictly after time t and strictly less
than delay ms after the previous one. -/
def callsWellSpacedFrom {α : Type} (delay : Nat) : Nat → List (Nat × α) → Bool
  | _, [] => true
  | t, (t2, _) :: rest =>
    (decide (t < t2) && decide (t2 < t + delay)) && callsWellSpacedFrom delay t2 rest

/-- Successive calls are strictly increasing in time with gaps strictly
below delay. -/
def callsWellSpaced {α : Type} (delay : Nat) : List (Nat × α) → Bool
  | [] => true
  | (t, _) :: rest => callsWellSpacedFrom delay t rest

/-- Render times strictly increase starting after tprev and all occur
strictly before the pending fire time tf. -/
def rendersWellPlaced {κ : Type} (tf : Nat) : Nat → List (Nat × κ) → Bool
  | _, [] => true
  | tprev, (t, _) :: rest =>
    (decide (tprev < t) && decide (t < tf)) && rendersWellPlaced tf t rest

theorem foldl_calls_spaced {α κ : Type} (delay : Nat) (c : κ) :
    ∀ (calls : List (Nat × α)) (t : Nat) (a : α) (F : List (Nat × κ × α)),
      callsWellSpacedFrom delay t calls = true →
      List.foldl (dbStep delay)
        { callbackRef := c, timeoutRef := some (t + delay, a), fired := F, mounted := true }
        (calls.map fun p => DbEvent.call p.1 p.2)
      = { callbackRef := c,
          timeoutRef := some ((lastD (t, a) calls).1 + delay, (lastD (t, a) calls).2),
          fired := F, mounted := true } := by
  intro calls
  induction calls with
  | nil =>
    intro t a F _
    simp [lastD]
  | cons hd tl ih =>
    intro t a F hws
    obtain ⟨t2, a2⟩ := hd
    simp only [callsWellSpacedFrom, Bool.and_eq_true, decide_eq_true_eq] at hws
    obtain ⟨⟨h1, h2⟩, h3⟩ := hws
    simp only [List.map_cons, List.foldl_cons]
    have hne : ¬ (t + delay ≤ t2) := by omega
    have hstep : dbStep delay
        { callbackRef := c, timeoutRef := some (t + delay, a), fired := F, mounted := true }
        (DbEvent.call t2 a2)
        = { callbackRef := c, timeoutRef := some (t2 + delay, a2),
            fired := F, mounted := true } := by
      simp [dbStep, fireDue, hne]
    rw [hstep, ih t2 a2 F h3]
    rfl

theorem foldl_renders_placed {α κ : Type} (delay tf : Nat) (a : α) :
    ∀ (renders : List (Nat × κ)) (tprev : Nat) (c : κ) (F : List (Nat × κ × α)),
      rendersWellPlaced tf tprev renders = true →
      List.foldl (dbStep delay)
        { callbackRef := c, timeoutRef := some (tf, a), fired := F, mounted := true }
        (renders.map fun p => DbEvent.render p.1 p.2)
      = { callbackRef := lastD c (renders.map Prod.snd), timeoutRef := some (tf, a),
          fired := F, mounted := true } := by
  intro renders
  induction renders with
  | nil =>
    intro tprev c F _
    simp [lastD]
  | cons hd tl ih =>
    intro tprev c F hws
    obtain ⟨t2, cb2⟩ := hd
    simp only [rendersWellPlaced, Bool.and_eq_true, decide_eq_true_eq] at hws
    obtain ⟨⟨h1, h2⟩, h3⟩ := hws
    simp only [List.map_cons, List.foldl_cons]
    have hne : ¬ (tf ≤ t2) := by omega
    have hstep : dbStep delay
        { callbackRef := c, timeoutRef := some (tf, a), fired := F, mounted := true }
        (DbEvent.render t2 cb2)
        = { callbackRef := cb2, timeoutRef := some (tf, a),
            fired := F, mounted := true } := by
      simp [dbStep, fireDue, hne]
    rw [hstep, ih t2 cb2 F h3]
    rfl

/-! ## Disclosure primitive: components/ui/popover.tsx -/

/-- Props of the Popover component: an optional externally controlled
open flag, the defaultOpen initial value, and whether an onOpenChange
notifier was supplied (the source invokes it through optional
chaining). -/
structure PopoverProps where
  controlledOpen : Option Bool
  defaultOpen : Bool
  hasOnOpenChange : Bool
  deriving Repr, DecidableEq

/-- Internal React state of the Popover (the internalOpen useState). -/
structure PopoverState where
  internalOpen : Bool
  deriving Repr, DecidableEq

/-- isControlled: controlledOpen prop is not undefined. -/
def isControlled (p : PopoverProps) : Bool := p.controlledOpen.isSome

/-- Initial internal state: useState(defaultOpen). -/
def initPopoverState (p : PopoverProps) : PopoverState := { internalOpen := p.defaultOpen }

/-- The open state all sub-components read:
isOpen = isControlled ? controlledOpen : internalOpen. -/
def isOpen (p : PopoverProps) (s : PopoverState) : Bool :=
  match p.controlledOpen with
  | some b => b
  | none => s.internalOpen

/-- The setIsOpen callback of Popover (popover.tsx lines 89 to 94):
writes internal state only when uncontrolled, and invokes the optional
onOpenChange notifier with the requested value.  Returns the new
internal state and the list of notifier invocations. -/
def setIsOpen (p : PopoverProps) (s : PopoverState) (openValue : Bool) :
    PopoverState × List Bool :=
  (if isControlled p then s else { internalOpen := openValue },
   if p.hasOnOpenChange then [openValue] else [])

/-! ## PopoverClose with asChild (popover.tsx lines 244 to 263) -/

/-- A DOM click event; handlers may mark it via preventDefault. -/
structure ClickEvent where
  defaultPrevented : Bool
  deriving Repr, DecidableEq

/-- event.preventDefault() -/
def preventDefault (e : ClickEvent) : ClickEvent := { e with defaultPrevented := true }

/-- A child click handler is modelled as a function from a handler-side
state to the new state together with whether the handler called
preventDefault on the event. -/
def popoverCloseOnClick {σ : Type} (childOnClick : Option (σ → σ × Bool)) (s : σ)
    (e : ClickEvent) : σ × ClickEvent × List Bool :=
  match childOnClick with
  | some handler =>
    let r := handler s
    let e2 := if r.2 then preventDefault e else e
    (r.1, e2, if e2.defaultPrevented then [] else [false])
  | none =>
    (s, e, if e.defaultPrevented then [] else [false])

/-- The Set button handler of the link popover
(RichTextEditorUI.tsx): success = onSetLink(linkInput); when not
success, call preventDefault so PopoverClose keeps the popover open. -/
def setLinkClickHandler {σ : Type} (onSetLink : String → σ → σ × Bool)
    (linkInput : String) : σ → σ × Bool :=
  fun st =>
    let r := onSetLink linkInput st
    (r.1, !r.2)

/-! ## Context misuse errors (popover.tsx) -/

/-- The value provided by PopoverContext; positioning fields supplied by
the floating-ui library are external capabilities and are not part of
the state modelled here. -/
structure PopoverContextValue where
  ctxIsOpen : Bool
  deriving Repr, DecidableEq

/-- usePopoverContext: throws when no provider is present
(popover.tsx lines 58 to 64). -/
def usePopoverContext (ctx : Option PopoverContextValue) :
    Except String PopoverContextValue :=
  match ctx with
  | none => Except.error "Popover components must be wrapped in <Popover />"
  | some c => Except.ok c

/-- A React child node; validElement records whether
React.isValidElement holds for it. -/
structure ReactNode where
  validElement : Bool
  deriving Repr, DecidableEq

/-- React.Children.count over the children list. -/
def childrenCount (children : List ReactNode) : Nat := children.length

/-- React.isValidElement(children): true exactly when children is one
single node that is a valid element. -/
def isValidElement : List ReactNode → Bool
  | [c] => c.validElement
  | _ => false

/-- The child-count guard of PopoverClose with asChild
(popover.tsx lines 244 to 247): throws unless children is a single
valid React element. -/
def popoverCloseAsChildCheck (children : List ReactNode) : Except String Unit :=
  if decide (childrenCount children > 1) || !(isValidElement children) then
    Except.error "PopoverClose with asChild must have a single valid React element child."
  else Except.ok ()

/-! ## ToolbarDropdownButton option click (Toolbar.tsx lines 102 to 114) -/

/-- The option button onClick: run option.onClick() (any value it
returns, modelled here as a possible prevent signal, is discarded),
then unconditionally setIsOpen(false).  Returns the handler-side state
and the list of setIsOpen calls. -/
def toolbarDropdownOptionClick {σ : Type} (optionOnClick : σ → σ × Bool) (s : σ) :
    σ × List Bool :=
  ((optionOnClick s).1, [false])

/-! ## Theorems -/

/-- C1: on every change of the htmlContent prop, the sync effect pushes
the prop into the engine exactly when it differs (string equality) from
editor.getHTML(), every push carries emitUpdate false and addToHistory
false, and when the strings are equal the editor is untouched and no
push occurs. -/
theorem sync_effect_push_iff (normalize : String → String) (htmlContent : String)
    (ed : EditorState) :
    syncEffect normalize htmlContent (some ed)
      = (if htmlContent = ed.getHTML then (some ed, ([] : List PushRecord))
         else (some (setContent normalize ed htmlContent),
               [{ content := htmlContent, emitUpdate := false, addToHistory := false }])) ∧
    (∀ p : PushRecord, p ∈ (syncEffect normalize htmlContent (some ed)).2 →
        p.content = htmlContent ∧ p.emitUpdate = false ∧ p.addToHistory = false) ∧
    ((syncEffect normalize htmlContent (some ed)).2 = [] ↔ htmlContent = ed.getHTML) := by
  by_cases h : htmlContent = ed.getHTML
  · refine ⟨by simp [syncEffect, h], ?_, by simp [syncEffect, h]⟩
    intro p hp
    simp [syncEffect, h] at hp
  · refine ⟨by simp [syncEffect, h], ?_, by simp [syncEffect, h]⟩
    intro p hp
    simp only [syncEffect, if_pos (by exact h), List.mem_singleton] at hp
    subst hp
    exact ⟨rfl, rfl, rfl⟩

/-- C1 witness: at a prop value that differs from the current serialized
output, the single recorded push carries the prop and both suppression
flags. -/
theorem sync_effect_push_iff_witness :
    ({ content := "<p>hi</p>", emitUpdate := false, addToHistory := false } :
        PushRecord).content = "<p>hi</p>" ∧
    ({ content := "<p>hi</p>", emitUpdate := false, addToHistory := false } :
        PushRecord).emitUpdate = false ∧
    ({ content := "<p>hi</p>", emitUpdate := false, addToHistory := false } :
        PushRecord).addToHistory = false :=
  (sync_effect_push_iff id "<p>hi</p>" { html := "" }).2.1
    { content := "<p>hi</p>", emitUpdate := false, addToHistory := false } (by decide)

/-- C2: a corrective push from the bridge never, by itself, causes an
outward relay: every push of the sync effect is performed with
emitUpdate false, so zero onUpdate events and hence zero
onChange/onDocumentChange invocations result; in particular a prop
equal to the current serialized output yields zero relay calls. -/
theorem sync_effect_no_feedback_loop (normalize : String → String)
    (htmlContent : String) (ed : EditorState) :
    syncEffectRelayCalls normalize htmlContent ed = [] ∧
    syncEffectRelayCalls normalize ed.getHTML ed = [] := by
  constructor
  · by_cases h : htmlContent = ed.getHTML <;>
      simp [syncEffectRelayCalls, syncEffect, pushUpdateEvents, h]
  · simp [syncEffectRelayCalls, syncEffect, pushUpdateEvents]

/-- C3: for any sequence of one or more wrapper calls in which each call
occurs less than delay ms after the previous one, exactly one underlying
invocation occurs, it fires delay ms after the last call, and it carries
the arguments of the last call; no intermediate invocation fires. -/
theorem debounce_collapse {α κ : Type} (delay : Nat) (c : κ) (t : Nat) (a : α)
    (rest : List (Nat × α))
    (hws : callsWellSpaced delay ((t, a) :: rest) = true) :
    dbFired delay c (((t, a) :: rest).map fun p => DbEvent.call p.1 p.2)
      = [((lastD (t, a) rest).1 + delay, c, (lastD (t, a) rest).2)] := by
  have h0 : dbStep delay (dbInit c) (DbEvent.call t a)
      = { callbackRef := c, timeoutRef := some (t + delay, a),
          fired := [], mounted := true } := by
    simp [dbStep, fireDue, dbInit]
  unfold dbFired dbRun
  simp only [List.map_cons, List.foldl_cons]
  rw [h0, foldl_calls_spaced delay c rest t a []
    (by simpa [callsWellSpaced] using hws)]
  simp [dbFlush]

/-- C3 witness: three calls at 0, 5, 9 ms with delay 10 produce exactly
one invocation, at 19 ms, with the arguments of the last call. -/
theorem debounce_collapse_witness :
    callsWellSpaced 10 [((0 : Nat), (1 : Nat)), (5, 2), (9, 3)] = true ∧
    dbFired 10 (0 : Nat)
        ([((0 : Nat), (1 : Nat)), (5, 2), (9, 3)].map fun p => DbEvent.call p.1 p.2)
      = [(19, 0, 3)] := by
  refine ⟨by decide, ?_⟩
  have h := debounce_collapse 10 (0 : Nat) 0 (1 : Nat) [(5, 2), (9, 3)] (by decide)
  simpa [lastD] using h

/-- C4: when the timer fires it invokes the target callback that was
latest at that moment (through the callback ref updated on every
render), not the one current when the timer was scheduled; this holds
for every replacement of the target during the wrapper's lifetime. -/
theorem debounce_latest_callback {α κ : Type} (delay : Nat) (c : κ) (t : Nat) (a : α)
    (renders : List (Nat × κ))
    (hrw : rendersWellPlaced (t + delay) t renders = true) :
    dbFired delay c
        (DbEvent.call t a :: renders.map fun p => DbEvent.render p.1 p.2)
      = [(t + delay, lastD c (renders.map Prod.snd), a)] := by
  have h0 : dbStep delay (dbInit c) (DbEvent.call t a)
      = { callbackRef := c, timeoutRef := some (t + delay, a),
          fired := [], mounted := true } := by
    simp [dbStep, fireDue, dbInit]
  unfold dbFired dbRun
  simp only [List.foldl_cons]
  rw [h0, foldl_renders_placed delay (t + delay) a renders t c [] hrw]
  simp [dbFlush]

/-- C4 witness: a call at 0 ms with initial callback 5, then renders at
3 and 6 ms replacing the target with 7 then 9, fires once at 10 ms
invoking the latest target 9 with the original arguments. -/
theorem debounce_latest_callback_witness :
    rendersWellPlaced 10 0 [((3 : Nat), (7 : Nat)), (6, 9)] = true ∧
    dbFired 10 (5 : Nat)
        (DbEvent.call 0 (42 : Nat) ::
          [((3 : Nat), (7 : Nat)), (6, 9)].map fun p => DbEvent.render p.1 p.2)
      = [(10, 9, 42)] := by
  refine ⟨by decide, ?_⟩
  have h := debounce_latest_callback 10 (5 : Nat) 0 (42 : Nat)
    [(3, 7), (6, 9)] (by decide)
  simpa [lastD] using h

/-- C5: when the owning scope unmounts before delay ms have elapsed
after the most recent wrapper call, the pending timer is cancelled and
zero underlying invocations ever occur. -/
theorem debounce_unmount_cancel {α κ : Type} (delay : Nat) (c : κ) (t : Nat) (a : α)
    (rest : List (Nat × α)) (tu : Nat)
    (hws : callsWellSpaced delay ((t, a) :: rest) = true)
    (hu : tu < (lastD (t, a) rest).1 + delay) :
    dbFired delay c
        ((((t, a) :: rest).map fun p => DbEvent.call p.1 p.2) ++ [DbEvent.unmount tu])
      = [] := by
  have h0 : dbStep delay (dbInit c) (DbEvent.call t a)
      = { callbackRef := c, timeoutRef := some (t + delay, a),
          fired := [], mounted := true } := by
    simp [dbStep, fireDue, dbInit]
  unfold dbFired dbRun
  rw [List.foldl_append]
  simp only [List.map_cons, List.foldl_cons]
  rw [h0, foldl_calls_spaced delay c rest t a []
    (by simpa [callsWellSpaced] using hws)]
  have hne : ¬ ((lastD (t, a) rest).1 + delay ≤ tu) := by omega
  simp [dbStep, fireDue, hne, dbFlush]

/-- C5 witness: calls at 0 and 5 ms with delay 10, unmount at 12 ms
(before the pending fire time 15): zero invocations. -/
theorem debounce_unmount_cancel_witness :
    callsWellSpaced 10 [((0 : Nat), (1 : Nat)), (5, 2)] = true ∧
    12 < (lastD ((0 : Nat), (1 : Nat)) [(5, 2)]).1 + 10 ∧
    dbFired 10 (0 : Nat)
        (([((0 : Nat), (1 : Nat)), (5, 2)].map fun p => DbEvent.call p.1 p.2)
          ++ [DbEvent.unmount 12])
      = [] :=
  ⟨by decide, by decide,
    debounce_unmount_cancel 10 (0 : Nat) 0 (1 : Nat) [(5, 2)] 12
      (by decide) (by decide)⟩

/-- C6: in controlled mode the open state read by sub-components equals
the external flag and setIsOpen never writes the internal state, while
every transition attempt invokes the supplied change notifier with the
requested value; in uncontrolled mode setIsOpen writes the internal
state to the requested value (and also notifies when a notifier is
supplied). -/
theorem popover_controlled_semantics (p : PopoverProps) (s : PopoverState) (v b : Bool) :
    (p.controlledOpen = some b →
        isOpen p s = b ∧
        (setIsOpen p s v).1 = s ∧
        (p.hasOnOpenChange = true → (setIsOpen p s v).2 = [v])) ∧
    (p.controlledOpen = none →
        (setIsOpen p s v).1.internalOpen = v ∧
        (p.hasOnOpenChange = true → (setIsOpen p s v).2 = [v])) := by
  constructor
  · intro h
    refine ⟨by simp [isOpen, h], by simp [setIsOpen, isControlled, h], ?_⟩
    intro hn
    simp [setIsOpen, hn]
  · intro h
    refine ⟨by simp [setIsOpen, isControlled, h], ?_⟩
    intro hn
    simp [setIsOpen, hn]

/-- C6 witness: a controlled popover with external flag true reads open
regardless of internal state, a transition attempt leaves the internal
state untouched and notifies with the requested value. -/
theorem popover_controlled_semantics_witness :
    isOpen { controlledOpen := some true, defaultOpen := false, hasOnOpenChange := true }
        { internalOpen := false } = true ∧
    (setIsOpen { controlledOpen := some true, defaultOpen := false, hasOnOpenChange := true }
        { internalOpen := false } false).1 = { internalOpen := false } ∧
    (setIsOpen { controlledOpen := some true, defaultOpen := false, hasOnOpenChange := true }
        { internalOpen := false } false).2 = [false] := by
  have h := (popover_controlled_semantics
      { controlledOpen := some true, defaultOpen := false, hasOnOpenChange := true }
      { internalOpen := false } false true).1 rfl
  exact ⟨h.1, h.2.1, h.2.2 rfl⟩

/-- C7 counterexample: an uncontrolled popover that is already open,
with an onOpenChange notifier supplied: requesting open again emits a
(duplicate) change notification, so the transition is not
notification-free as the claim states. -/
theorem popover_idempotence_counterexample :
    isOpen { controlledOpen := none, defaultOpen := true, hasOnOpenChange := true }
        { internalOpen := true } = true ∧
    (setIsOpen { controlledOpen := none, defaultOpen := true, hasOnOpenChange := true }
        { internalOpen := true } true).2 ≠ [] := by decide

/-- C7 amended: requesting the value the disclosure already has leaves
the disclosure state unchanged in both modes (a state-level no-op), but
setIsOpen still invokes the change notifier with the requested value
whenever a notifier is supplied, producing a duplicate notification;
only without a notifier is the transition attempt notification-free. -/
theorem popover_setIsOpen_same_value (p : PopoverProps) (s : PopoverState) (v : Bool)
    (h : isOpen p s = v) :
    (setIsOpen p s v).1 = s ∧
    (setIsOpen p s v).2 = (if p.hasOnOpenChange then [v] else []) := by
  refine ⟨?_, rfl⟩
  cases hc : p.controlledOpen with
  | some b => simp [setIsOpen, isControlled, hc]
  | none =>
    obtain ⟨io⟩ := s
    have hio : io = v := by simpa [isOpen, hc] using h
    simp [setIsOpen, isControlled, hc, hio]

/-- C7 amended witness: an already-open uncontrolled popover with a
notifier: requesting open leaves the state unchanged but emits the
notification with the requested value. -/
theorem popover_setIsOpen_same_value_witness :
    (setIsOpen { controlledOpen := none, defaultOpen := false, hasOnOpenChange := true }
        { internalOpen := true } true).1 = { internalOpen := true } ∧
    (setIsOpen { controlledOpen := none, defaultOpen := false, hasOnOpenChange := true }
        { internalOpen := true } true).2 = [true] := by
  have h := popover_setIsOpen_same_value
      { controlledOpen := none, defaultOpen := false, hasOnOpenChange := true }
      { internalOpen := true } true (by decide)
  simpa using h

/-- C8: activating a PopoverClose rendered with asChild runs the child's
own click handler first, and closes (setIsOpen false) exactly when that
handler did not call preventDefault; instantiated at the link popover's
Set button, the popover closes exactly when onSetLink reports
success. -/
theorem popover_close_veto (σ : Type) (handler : σ → σ × Bool) (s : σ)
    (onSetLink : String → σ → σ × Bool) (url : String) :
    (popoverCloseOnClick (some handler) s { defaultPrevented := false }).1
        = (handler s).1 ∧
    (popoverCloseOnClick (some handler) s { defaultPrevented := false }).2.2
        = (if (handler s).2 then [] else [false]) ∧
    (popoverCloseOnClick (some (setLinkClickHandler onSetLink url)) s
        { defaultPrevented := false }).2.2
        = (if (onSetLink url s).2 then [false] else []) := by
  refine ⟨rfl, ?_, ?_⟩
  · cases hr : (handler s).2 <;>
      simp [popoverCloseOnClick, preventDefault, hr]
  · cases hr : (onSetLink url s).2 <;>
      simp [popoverCloseOnClick, setLinkClickHandler, preventDefault, hr]

/-- C9: using a Popover sub-component outside the provider throws, and
PopoverClose with asChild throws unless its children are exactly one
valid React element; neither condition is degraded gracefully. -/
theorem popover_context_misuse_errors :
    usePopoverContext none
        = Except.error "Popover components must be wrapped in <Popover />" ∧
    (∀ c : PopoverContextValue, usePopoverContext (some c) = Except.ok c) ∧
    (∀ children : List ReactNode,
        popoverCloseAsChildCheck children = Except.ok () ↔
          ∃ c : ReactNode, children = [c] ∧ c.validElement = true) := by
  refine ⟨rfl, fun c => rfl, fun children => ?_⟩
  match children with
  | [] =>
    simp [popoverCloseAsChildCheck, childrenCount, isValidElement]
  | [c] =>
    cases hc : c.validElement with
    | false =>
      simp only [popoverCloseAsChildCheck, childrenCount, isValidElement, hc]
      simp only [List.length_singleton]
      constructor
      · intro h
        simp at h
      · rintro ⟨c2, hc2, hv⟩
        obtain rfl : c2 = c := by simpa using hc2.symm
        simp [hv] at hc
    | true =>
      simp only [popoverCloseAsChildCheck, childrenCount, isValidElement, hc]
      simp only [List.length_singleton]
      constructor
      · intro _
        exact ⟨c, rfl, hc⟩
      · intro _
        simp
  | c1 :: c2 :: rest =>
    simp only [popoverCloseAsChildCheck, childrenCount, isValidElement, List.length_cons]
    constructor
    · intro h
      simp at h
    · rintro ⟨c3, hc3, _⟩
      simp at hc3

/-- C10: clicking an option of a ToolbarDropdownButton first invokes the
option's own handler and then unconditionally closes the dropdown; in
contrast with PopoverClose there is no veto path, so the dropdown
closes even when the handler signals prevention. -/
theorem toolbar_dropdown_option_closes (σ : Type) (handler : σ → σ × Bool) (s : σ) :
    (toolbarDropdownOptionClick handler s).1 = (handler s).1 ∧
    (toolbarDropdownOptionClick handler s).2 = [false] ∧
    (popoverCloseOnClick (some handler) s { defaultPrevented := false }).2.2
        = (if (handler s).2 then [] else [false]) := by
  refine ⟨rfl, rfl, ?_⟩
  cases hr : (handler s).2 <;>
    simp [popoverCloseOnClick, preventDefault, hr]

end Tiptap
